import Mathlib

/-!
Shallow embedding of the watermarking utility (`watermark.py`) and the web
helpers (`app.py`) of the rogersphotos repository, with theorems settling the
specification's claims about them.

Conventions of the embedding:
* Python integers are `ℤ` (or `ℕ` where the source value is a count); pixel
  dimensions are `ℕ`.
* The text-measuring call `draw.textbbox((0, 0), text, font=load_snell_font(s))`
  is abstracted by a function `m : ℕ → ℤ` giving the bounding-box metrics of
  the fixed watermark text at candidate font size `s`; quantifying over the
  measure models quantifying over the text string and the resolved font.
* PIL raster primitives are abstracted by a context `Ctx` of pure functions; an
  image is its dimensions plus a total pixel map.  The PIL facts the model
  reflects structurally are documented semantics of the library: drawing on a
  layer mutates pixels in place and cannot change its size, `GaussianBlur` and
  mode conversion return an image of the same size, and `alpha_composite` of
  two equally sized layers (the only way it is called here) has that size.
* `math.cos`/`math.sin` on IEEE doubles are idealized as real `cos`/`sin`; at
  the one angle the program uses (−90°) the double rounding error (≈6·10⁻¹⁶)
  is absorbed by the outer `round`, so the idealization agrees with the code.
-/

namespace RogersPhotos

/-! ## Definitions -/

/-! ### Font-size search (`find_max_font_size`, watermark.py lines 53-63)

Source:
```
def find_max_font_size(text, image_width):
    size = 200
    while size > 1:
        font = load_snell_font(size)
        dummy = Image.new("RGBA", (100, 100))
        draw = ImageDraw.Draw(dummy)
        bbox = draw.textbbox((0, 0), text, font=font)
        if (bbox[2] - bbox[0]) <= image_width - 20:
            return font
        size -= 1
    return load_snell_font(10)
```
The loop body at counter value `size` tests the measured width `m size`
against `image_width - 20` and returns on success; the loop guard `size > 1`
stops the countdown after testing size 2, and the fall-through returns the
font at size 10.  The embedding returns the size of the returned font. -/

/-- One state of the `while size > 1` countdown of `find_max_font_size`:
`findFontLoop m w size` is the size of the font the remaining iterations
return, where `m s` is the measured text bounding-box width at font size `s`
and `w` is `image_width`. -/
def findFontLoop (m : ℕ → ℤ) (w : ℤ) : ℕ → ℕ
  | 0 => 10
  | 1 => 10
  | (n + 2) => if m (n + 2) ≤ w - 20 then n + 2 else findFontLoop m w (n + 1)

/-- `find_max_font_size` (watermark.py line 53): start the countdown at 200. -/
def find_max_font_size (m : ℕ → ℤ) (w : ℤ) : ℕ :=
  findFontLoop m w 200

/-- A size `s` "fits" width `w` when the measured text width is at most
`w - 20` — the test on watermark.py line 60. -/
def fitsWidth (m : ℕ → ℤ) (w : ℤ) (s : ℕ) : Prop :=
  m s ≤ w - 20

instance (m : ℕ → ℤ) (w : ℤ) (s : ℕ) : Decidable (fitsWidth m w s) :=
  inferInstanceAs (Decidable (m s ≤ w - 20))

/-- The set of sizes in `[2, 200]` that fit width `w` under measure `m`. -/
def fittingSizes (m : ℕ → ℤ) (w : ℤ) : Finset ℕ :=
  (Finset.Icc 2 200).filter (fun s => m s ≤ w - 20)

/-- Specification-side chosen size, following the amended wording of the
claim about `find_max_font_size`: the largest size in `[2, 200]` whose
measured width is at most `image_width - 20` (the padding of 20 subtracted
once), and the fixed size 10 when no size in `[2, 200]` fits. -/
def specChosenSize (m : ℕ → ℤ) (w : ℤ) : ℕ :=
  if h : (fittingSizes m w).Nonempty then (fittingSizes m w).max' h else 10

/-! ### Shadow-offset trigonometry (watermark.py lines 30-34 and 81-84)

Source constants and offset computation:
```
SHADOW_OPACITY = 80
SHADOW_OFFSET_DISTANCE = 10
SHADOW_ANGLE_DEGREES = -90
SHADOW_BLUR_RADIUS = 20
TEXT_FILL = (255, 255, 255, 160)
...
theta = math.radians(SHADOW_ANGLE_DEGREES)
dx = int(round(SHADOW_OFFSET_DISTANCE * math.cos(theta)))
dy = int(round(SHADOW_OFFSET_DISTANCE * math.sin(theta)))
```
-/

def SHADOW_OPACITY : ℤ := 80

def SHADOW_OFFSET_DISTANCE : ℝ := 10

def SHADOW_ANGLE_DEGREES : ℝ := -90

def SHADOW_BLUR_RADIUS : ℤ := 20

def WATERMARK_PADDING : ℤ := 20

/-- `math.radians` followed by `round(distance * math.cos(theta))`
(watermark.py line 83). -/
noncomputable def shadow_dx (angleDeg dist : ℝ) : ℤ :=
  round (dist * Real.cos (angleDeg * Real.pi / 180))

/-- `math.radians` followed by `round(distance * math.sin(theta))`
(watermark.py line 84). -/
noncomputable def shadow_dy (angleDeg dist : ℝ) : ℤ :=
  round (dist * Real.sin (angleDeg * Real.pi / 180))

/-! ### The raster model -/

/-- An RGBA pixel. -/
def Pixel : Type := ℤ × ℤ × ℤ × ℤ

/-- `TEXT_FILL = (255, 255, 255, 160)` (watermark.py line 35). -/
def TEXT_FILL : Pixel := (255, 255, 255, 160)

/-- A fully transparent pixel, the background of `Image.new("RGBA", size,
(0, 0, 0, 0))`. -/
def clearPixel : Pixel := (0, 0, 0, 0)

/-- A decoded raster: dimensions plus a total pixel map. -/
structure Img where
  width : ℕ
  height : ℕ
  px : ℤ × ℤ → Pixel

/-- PIL `draw.textbbox((0, 0), text, font)` result `(x0, y0, x1, y1)`. -/
structure BBox where
  x0 : ℤ
  y0 : ℤ
  x1 : ℤ
  y1 : ℤ

/-- The PIL primitives `apply_watermark` composes, as pure functions.  The
fields abstract, in order: `draw.textbbox` for the fixed watermark text at a
font size; `draw.text(position, WATERMARK_TEXT, font, fill, stroke_width,
stroke_fill)` as an in-place pixel update of a layer; `ImageFilter.GaussianBlur
(radius)`; `convert("RGBA")` as a per-image pixel conversion;
`Image.alpha_composite(base, overlay)` pointwise (both layers always have the
full image size here); `convert("RGB")` pointwise; and the JPEG encoder taking
width, height, quality and the flattened pixels to the encoded byte stream. -/
structure Ctx where
  textbbox : ℕ → BBox
  renderText : ℕ → ℤ × ℤ → Pixel → ℕ → Option Pixel →
    (ℤ × ℤ → Pixel) → (ℤ × ℤ → Pixel)
  gaussianBlur : ℤ → (ℤ × ℤ → Pixel) → (ℤ × ℤ → Pixel)
  convertRGBA : (ℤ × ℤ → Pixel) → (ℤ × ℤ → Pixel)
  alphaOver : Pixel → Pixel → Pixel
  toRGB : Pixel → ℤ × ℤ × ℤ
  encodeJPEG : ℕ → ℕ → ℕ → (ℤ × ℤ → ℤ × ℤ × ℤ) → List ℕ

/-- The width measure `find_max_font_size` actually uses:
`bbox[2] - bbox[0]` of the watermark text at each candidate size. -/
def ctxMeasure (ctx : Ctx) : ℕ → ℤ :=
  fun s => (ctx.textbbox s).x1 - (ctx.textbbox s).x0

/-- The font size chosen on watermark.py line 69:
`find_max_font_size(WATERMARK_TEXT, image.width)`. -/
def wmFontSize (ctx : Ctx) (img : Img) : ℕ :=
  find_max_font_size (ctxMeasure ctx) (img.width : ℤ)

/-- `text_w = bbox[2] - bbox[0]` at the chosen size (watermark.py line 73). -/
def wmTextW (ctx : Ctx) (img : Img) : ℤ :=
  (ctx.textbbox (wmFontSize ctx img)).x1 - (ctx.textbbox (wmFontSize ctx img)).x0

/-- `text_h = bbox[3] - bbox[1]` at the chosen size (watermark.py line 74). -/
def wmTextH (ctx : Ctx) (img : Img) : ℤ :=
  (ctx.textbbox (wmFontSize ctx img)).y1 - (ctx.textbbox (wmFontSize ctx img)).y0

/-- The text anchor of watermark.py lines 77-79:
`x = image.width - text_w - PADDING`, `y = image.height - text_h - PADDING`
with `PADDING = 20`, as signed integers (Python ints may go negative). -/
def wmAnchor (ctx : Ctx) (img : Img) : ℤ × ℤ :=
  ((img.width : ℤ) - wmTextW ctx img - WATERMARK_PADDING,
   (img.height : ℤ) - wmTextH ctx img - WATERMARK_PADDING)

/-- The shadow text position `(x + dx, y + dy)` of watermark.py line 89. -/
noncomputable def wmShadowPos (ctx : Ctx) (img : Img) : ℤ × ℤ :=
  ((wmAnchor ctx img).1 + shadow_dx SHADOW_ANGLE_DEGREES SHADOW_OFFSET_DISTANCE,
   (wmAnchor ctx img).2 + shadow_dy SHADOW_ANGLE_DEGREES SHADOW_OFFSET_DISTANCE)

/-- `apply_watermark` (watermark.py lines 65-108) up to, and excluding, the
final `save`: convert the source to RGBA, keep the untouched copy as `base`,
draw the shadow text at the offset position on a transparent full-size layer,
Gaussian-blur it, alpha-composite it over the base, draw the translucent text
with a width-1 stroke on a second transparent layer, and alpha-composite that
over the intermediate.  Every layer is created with `image.size`, so the
result carries the source dimensions. -/
noncomputable def apply_watermark (ctx : Ctx) (img : Img) : Img :=
  let basePx := ctx.convertRGBA img.px
  let size := wmFontSize ctx img
  let shadowPx := ctx.renderText size (wmShadowPos ctx img)
    (0, 0, 0, SHADOW_OPACITY) 0 none (fun _ => clearPixel)
  let shadowBlurredPx := ctx.gaussianBlur SHADOW_BLUR_RADIUS shadowPx
  let composed1 := fun p => ctx.alphaOver (basePx p) (shadowBlurredPx p)
  let textPx := ctx.renderText size (wmAnchor ctx img)
    TEXT_FILL 1 (some TEXT_FILL) (fun _ => clearPixel)
  { width := img.width
    height := img.height
    px := fun p => ctx.alphaOver (composed1 p) (textPx p) }

/-- The byte stream `composed.convert("RGB").save(output_path, "JPEG",
quality=95)` hands to the destination file (watermark.py line 109). -/
noncomputable def wmOutput (ctx : Ctx) (img : Img) : List ℕ :=
  ctx.encodeJPEG (apply_watermark ctx img).width (apply_watermark ctx img).height
    95 (fun p => ctx.toRGB ((apply_watermark ctx img).px p))

/-! ### Destination-file semantics of the final `save`

PIL's `Image.save(output_path, "JPEG", ...)` opens the destination itself with
`builtins.open(fp, "w+b")` (truncating/creating the file) and only then runs
the encoder; `apply_watermark` calls it directly on `output_path` with no
temporary file and no rename, and has no exception handler, so no failure is
retried.  The outcome of the write is modelled explicitly. -/

/-- Outcome of the destination write: full success, failure to open the
destination (nothing created), or an encoder/O-S failure after `k` bytes were
already written to the (already truncated/created) file. -/
inductive SaveOutcome where
  | success : SaveOutcome
  | openFail : SaveOutcome
  | writeFail : ℕ → SaveOutcome

/-- Contents of the destination path after `save` hands `bytes` to the opened
file, given the prior contents `prev` (`none` = no file). -/
def savedFile (bytes : List ℕ) : SaveOutcome → Option (List ℕ) → Option (List ℕ)
  | .success, _ => some bytes
  | .openFail, prev => prev
  | .writeFail k, _ => some (bytes.take k)

/-- Where a single `apply_watermark` invocation can fail: decoding the source
(`Image.open`, line 66, before any output activity), loading a font (lines
69, before any output activity), or the final `save` (line 109). -/
inductive RunStage where
  | openSrcFail : RunStage
  | fontError : RunStage
  | saveStage : SaveOutcome → RunStage

/-- Contents of the destination path after one `apply_watermark(input_path,
output_path)` invocation that reaches `stage`, given prior contents `prev`.
The source is strictly sequential — open, measure, draw, then one `save` —
so failures before the `save` leave the destination untouched. -/
noncomputable def apply_watermark_dest (ctx : Ctx) (img : Img) (stage : RunStage)
    (prev : Option (List ℕ)) : Option (List ℕ) :=
  match stage with
  | .openSrcFail => prev
  | .fontError => prev
  | .saveStage oc => savedFile (wmOutput ctx img) oc prev

/-! ### Font resolution (`load_snell_font`, watermark.py lines 37-51)

Source:
```
def load_snell_font(size: int) -> ImageFont.FreeTypeFont:
    if _DECODED_FONT_PATH and os.path.exists(_DECODED_FONT_PATH):
        try:
            return ImageFont.truetype(_DECODED_FONT_PATH, size=size, index=FONT_INDEX)
        except OSError:
            try:
                return ImageFont.truetype(_DECODED_FONT_PATH, size=size, index=0)
            except OSError:
                pass
    if os.path.exists(FALLBACK_FONT_PATH):
        return ImageFont.truetype(FALLBACK_FONT_PATH, size=size)
    return ImageFont.load_default()
```
Only `OSError` is caught; any other exception propagates. -/

/-- A Python exception class, as far as the handlers here distinguish it. -/
inductive PyErr where
  | osError : PyErr
  | other : PyErr
deriving DecidableEq

/-- The filesystem/library facts `load_snell_font` consults, per font size:
whether the decoded TTC exists, what `ImageFont.truetype` returns on it at
the configured index and at index 0, whether the bundled fallback file
exists, what `truetype` returns on it, and the never-failing
`ImageFont.load_default()`. -/
structure FontEnv (Font : Type) where
  decodedExists : Bool
  ttcAtConfigIndex : ℕ → Except PyErr Font
  ttcAtIndex0 : ℕ → Except PyErr Font
  fallbackExists : Bool
  fallbackTruetype : ℕ → Except PyErr Font
  defaultFont : Font

/-- The tail of `load_snell_font` after the decoded-TTC block: bundled
fallback file if present, else `ImageFont.load_default()`. -/
def loadFallbackTier {Font : Type} (env : FontEnv Font) (size : ℕ) :
    Except PyErr Font :=
  if env.fallbackExists then env.fallbackTruetype size else .ok env.defaultFont

/-- `load_snell_font` (watermark.py lines 37-51): `.error e` models the call
raising exception `e` to its caller. -/
def load_snell_font {Font : Type} (env : FontEnv Font) (size : ℕ) :
    Except PyErr Font :=
  if env.decodedExists then
    match env.ttcAtConfigIndex size with
    | .ok f => .ok f
    | .error e =>
      if e = .osError then
        match env.ttcAtIndex0 size with
        | .ok f => .ok f
        | .error e2 =>
          if e2 = .osError then loadFallbackTier env size else .error e2
      else .error e
  else loadFallbackTier env size

/-! ### `app.py` helpers -/

/-- `app.config['ALLOWED_EXTENSIONS'] = {'png', 'jpg', 'jpeg', 'gif'}`
(app.py line 16). -/
def ALLOWED_EXTENSIONS : List (List Char) :=
  [['p', 'n', 'g'], ['j', 'p', 'g'], ['j', 'p', 'e', 'g'], ['g', 'i', 'f']]

/-- Python `str.lower` on the ASCII extensions involved. -/
def pyLower (s : List Char) : List Char := s.map Char.toLower

/-- `filename.rsplit('.', 1)[1]` for a filename containing a `'.'`: the
characters after the last dot. -/
def rsplitLast (s : List Char) : List Char :=
  (s.reverse.takeWhile (fun c => c != '.')).reverse

/-- `allowed_file` (app.py lines 32-33):
`'.' in filename and filename.rsplit('.', 1)[1].lower() in ALLOWED_EXTENSIONS`.
The Python `and` short-circuits, so the `rsplit` indexing is only reached
when a dot is present. -/
def allowed_file (s : List Char) : Bool :=
  decide ('.' ∈ s) && decide (pyLower (rsplitLast s) ∈ ALLOWED_EXTENSIONS)

/-- A document of the `photos` Firestore collection, with the fields the
upload handler writes (app.py lines 147-153). -/
structure PhotoDoc where
  filename : List Char
  category : List Char
  is_featured : Bool
  price : ℚ
  storage_url : List Char

/-- The document `fs.collection('photos').add({...})` stores for a fresh
upload (app.py lines 147-153): `is_featured: False`, `price: 0.0`. -/
def uploadPhotoDoc (fn cat url : List Char) : PhotoDoc :=
  { filename := fn, category := cat, is_featured := false, price := 0,
    storage_url := url }

/-- Effect of a successful upload on the `photos` collection: the new
document is added. -/
def uploadAddPhoto (db : List PhotoDoc) (fn cat url : List Char) :
    List PhotoDoc :=
  db ++ [uploadPhotoDoc fn cat url]

/-- The home page's query (app.py line 71):
`fs.collection('photos').where('is_featured', '==', True)`. -/
def homeFeatured (db : List PhotoDoc) : List PhotoDoc :=
  db.filter (fun d => d.is_featured == true)

/-! ### Concrete instances used by witnesses and counterexamples -/

/-- A concrete raster context: the watermark text measures 500×50 at every
font size, drawing and blurring are the identity on layers, compositing keeps
the base pixel, and the "encoder" emits the dimensions and quality. -/
def cexCtx : Ctx :=
  { textbbox := fun _ => ⟨0, 0, 500, 50⟩
    renderText := fun _ _ _ _ _ layer => layer
    gaussianBlur := fun _ layer => layer
    convertRGBA := fun pxm => pxm
    alphaOver := fun a _ => a
    toRGB := fun _ => (0, 0, 0)
    encodeJPEG := fun w h q _ => [w, h, q] }

/-- A concrete 10×8 source image. -/
def cexImg : Img :=
  { width := 10, height := 8, px := fun _ => (0, 0, 0, 255) }

/-- A font environment in which no font file is available at all. -/
def emptyFontEnv : FontEnv ℕ :=
  { decodedExists := false
    ttcAtConfigIndex := fun _ => .error .osError
    ttcAtIndex0 := fun _ => .error .osError
    fallbackExists := false
    fallbackTruetype := fun _ => .error .osError
    defaultFont := 0 }

/-! ## Theorems -/

/-! ### Properties of the font-size countdown -/

/-- If no size in `[2, n]` fits, the countdown started at `n` falls through
to the size-10 font. -/
theorem findFontLoop_eq_fallback (m : ℕ → ℤ) (w : ℤ) :
    ∀ n : ℕ, (∀ s : ℕ, 2 ≤ s → s ≤ n → ¬ fitsWidth m w s) →
      findFontLoop m w n = 10 := by
  intro n
  induction n using Nat.strong_induction_on with
  | _ n ih =>
    intro h
    match n with
    | 0 => rfl
    | 1 => rfl
    | (k + 2) =>
      have hk : ¬ fitsWidth m w (k + 2) := h (k + 2) (by omega) (by omega)
      have hstep : findFontLoop m w (k + 2) = findFontLoop m w (k + 1) := by
        simp only [findFontLoop]
        exact if_neg hk
      rw [hstep]
      exact ih (k + 1) (by omega) (fun s h2 hs => h s h2 (by omega))

/-- If `s` fits and no larger size in `(s, n]` fits, the countdown started at
`n ≥ s` (with `s ≥ 2`) returns exactly `s`. -/
theorem findFontLoop_eq_of_fits (m : ℕ → ℤ) (w : ℤ) :
    ∀ n s : ℕ, 2 ≤ s → s ≤ n → fitsWidth m w s →
      (∀ t : ℕ, s < t → t ≤ n → ¬ fitsWidth m w t) →
      findFontLoop m w n = s := by
  intro n
  induction n using Nat.strong_induction_on with
  | _ n ih =>
    intro s h2 hsn hfit hmax
    match n with
    | 0 => omega
    | 1 => omega
    | (k + 2) =>
      by_cases hk : fitsWidth m w (k + 2)
      · have hs : s = k + 2 := by
          by_contra hne
          exact hmax (k + 2) (by omega) (by omega) hk
        subst hs
        simp only [findFontLoop]
        exact if_pos hfit
      · have hne : s ≠ k + 2 := fun hs => hk (hs ▸ hfit)
        have hstep : findFontLoop m w (k + 2) = findFontLoop m w (k + 1) := by
          simp only [findFontLoop]
          exact if_neg hk
        rw [hstep]
        exact ih (k + 1) (by omega) s h2 (by omega) hfit
          (fun t ht htn => hmax t ht (by omega))

theorem mem_fittingSizes (m : ℕ → ℤ) (w : ℤ) (s : ℕ) :
    s ∈ fittingSizes m w ↔ 2 ≤ s ∧ s ≤ 200 ∧ fitsWidth m w s := by
  simp [fittingSizes, Finset.mem_filter, Finset.mem_Icc, fitsWidth, and_assoc]

/-- `find_max_font_size` computes exactly the specification-side chosen
size. -/
theorem find_max_font_size_eq_spec (m : ℕ → ℤ) (w : ℤ) :
    find_max_font_size m w = specChosenSize m w := by
  unfold find_max_font_size specChosenSize
  by_cases h : (fittingSizes m w).Nonempty
  · rw [dif_pos h]
    set s := (fittingSizes m w).max' h with hs
    have hmem : s ∈ fittingSizes m w := (fittingSizes m w).max'_mem h
    rw [mem_fittingSizes] at hmem
    refine findFontLoop_eq_of_fits m w 200 s hmem.1 hmem.2.1 hmem.2.2 ?_
    intro t ht ht200 hfit
    have hmemt : t ∈ fittingSizes m w :=
      (mem_fittingSizes m w t).2 ⟨by omega, ht200, hfit⟩
    have := Finset.le_max' _ t hmemt
    omega
  · rw [dif_neg h]
    refine findFontLoop_eq_fallback m w 200 ?_
    intro s h2 hs hfit
    exact h ⟨s, (mem_fittingSizes m w s).2 ⟨h2, hs, hfit⟩⟩

/-! ### Claim: behaviour of `find_max_font_size` -/

/-- C1 (amended): for every width measure (text string/font) and image width,
`find_max_font_size` returns the largest integral font size in `[2, 200]`
(not `[1, 200]`: the loop guard `size > 1` stops the scan after size 2) whose
measured bounding-box width is at most `image_width - 20` (the padding of 20
is subtracted once, not twice), and falls back to the fixed size 10 when no
size in `[2, 200]` fits, rather than failing. -/
theorem find_max_font_size_spec_amended (m : ℕ → ℤ) (w : ℤ) :
    find_max_font_size m w = specChosenSize m w :=
  find_max_font_size_eq_spec m w

/-- C1 counterexample to the claim as stated.  First conjunct: with the
measure `m s = s` and `image_width = 200` the function returns size 180,
whose measured width 180 exceeds `image_width - 2*padding = 160` — the fit
threshold of the code is `image_width - 20`, not `image_width - 2*20`.
Second conjunct: with a measure under which exactly size 1 fits even the
claim's stricter bound (`m 1 = 0 ≤ 50 - 40`), the function still returns the
fallback 10 (whose width 1000 fits no bound): size 1 is never scanned, so the
claimed range `[1, 200]` is wrong and the fallback is taken even though a
fitting size exists in it. -/
theorem find_max_font_size_claim_cex :
    (find_max_font_size (fun s => (s : ℤ)) 200 = 180 ∧
      ¬ ((180 : ℤ) ≤ 200 - 2 * 20)) ∧
    (find_max_font_size (fun s => if s = 1 then 0 else 1000) 50 = 10 ∧
      (if (1 : ℕ) = 1 then (0 : ℤ) else 1000) ≤ 50 - 2 * 20 ∧
      ¬ ((if (10 : ℕ) = 1 then (0 : ℤ) else 1000) ≤ 50 - 2 * 20)) := by
  decide

/-- C3 (amended): for a fixed width measure (text string), increasing the
image width never decreases the chosen font size, *provided some size in
`[2, 200]` fits at the smaller width*.  (When nothing fits at the smaller
width the function returns the fixed fallback size 10, which can exceed a
genuinely fitting size in `[2, 9]` chosen at a larger width.) -/
theorem find_max_font_size_monotone_amended (m : ℕ → ℤ) (w₁ w₂ : ℤ)
    (hw : w₁ ≤ w₂) (hex : ∃ s : ℕ, 2 ≤ s ∧ s ≤ 200 ∧ m s ≤ w₁ - 20) :
    find_max_font_size m w₁ ≤ find_max_font_size m w₂ := by
  rw [find_max_font_size_eq_spec, find_max_font_size_eq_spec]
  obtain ⟨s, h2, h200, hfit⟩ := hex
  have h1 : (fittingSizes m w₁).Nonempty :=
    ⟨s, (mem_fittingSizes m w₁ s).2 ⟨h2, h200, hfit⟩⟩
  have hsub : fittingSizes m w₁ ⊆ fittingSizes m w₂ := by
    intro t ht
    rw [mem_fittingSizes] at ht ⊢
    exact ⟨ht.1, ht.2.1, le_trans ht.2.2 (by omega)⟩
  have h2' : (fittingSizes m w₂).Nonempty := h1.mono hsub
  unfold specChosenSize
  rw [dif_pos h1, dif_pos h2']
  exact Finset.le_max' _ _ (hsub ((fittingSizes m w₁).max'_mem h1))

/-- Witness for C3 (amended) at the measure `m s = s`, widths 30 ≤ 40:
size 2 fits width 30, and the monotonicity conclusion holds there. -/
theorem find_max_font_size_monotone_amended_witness :
    ((30 : ℤ) ≤ 40 ∧ 2 ≤ 2 ∧ 2 ≤ 200 ∧ ((2 : ℕ) : ℤ) ≤ 30 - 20) ∧
    find_max_font_size (fun s => (s : ℤ)) 30 ≤
      find_max_font_size (fun s => (s : ℤ)) 40 :=
  ⟨by norm_num,
   find_max_font_size_monotone_amended (fun s => (s : ℤ)) 30 40 (by norm_num)
     ⟨2, by norm_num, by norm_num, by norm_num⟩⟩

/-- C3 counterexample to the claim as stated: with the measure `m s = s` the
widths 21 ≤ 22 give chosen sizes 10 (fallback: nothing in `[2, 200]` fits
width 21) and 2 (only size 2 fits width 22) — the chosen size decreases as
the image widens. -/
theorem find_max_font_size_monotone_cex :
    (21 : ℤ) ≤ 22 ∧
    find_max_font_size (fun s => (s : ℤ)) 21 = 10 ∧
    find_max_font_size (fun s => (s : ℤ)) 22 = 2 ∧
    ¬ (find_max_font_size (fun s => (s : ℤ)) 21 ≤
        find_max_font_size (fun s => (s : ℤ)) 22) := by
  decide

/-! ### Claims about the compositing pipeline -/

/-- C2: for every raster context and input image, the image
`apply_watermark` composes and hands to the encoder has exactly the source
image's width and height: the source is converted in place, every layer is
created with `image.size`, and both alpha-composites are of equally sized
layers. -/
theorem apply_watermark_preserves_dimensions (ctx : Ctx) (img : Img) :
    (apply_watermark ctx img).width = img.width ∧
    (apply_watermark ctx img).height = img.height :=
  ⟨rfl, rfl⟩

/-- C4: the text anchor computed by `apply_watermark` (lines 76-79) is
`x = image_width - text_width - padding`, `y = image_height - text_height -
padding` with `padding = 20`, as signed integers; and when either coordinate
is negative the pipeline still runs to completion (the text is merely placed
partially off-canvas), producing an output of the source dimensions rather
than an error. -/
theorem wm_anchor_bottom_right (ctx : Ctx) (img : Img) :
    wmAnchor ctx img =
      ((img.width : ℤ) - wmTextW ctx img - 20,
       (img.height : ℤ) - wmTextH ctx img - 20) ∧
    ((wmAnchor ctx img).1 < 0 ∨ (wmAnchor ctx img).2 < 0 →
      (apply_watermark ctx img).width = img.width ∧
      (apply_watermark ctx img).height = img.height) :=
  ⟨rfl, fun _ => ⟨rfl, rfl⟩⟩

/-- Witness for C4: with the 500-wide text measure on the 10×8 image the
anchor x-coordinate is `10 - 500 - 20 = -510 < 0`, and the watermarked
output still has the source dimensions. -/
theorem wm_anchor_bottom_right_witness :
    ((wmAnchor cexCtx cexImg).1 < 0 ∨ (wmAnchor cexCtx cexImg).2 < 0) ∧
    (apply_watermark cexCtx cexImg).width = cexImg.width ∧
    (apply_watermark cexCtx cexImg).height = cexImg.height :=
  ⟨Or.inl (by decide),
   (wm_anchor_bottom_right cexCtx cexImg).2 (Or.inl (by decide))⟩

/-- C5: the shadow offset is `dx = round(distance * cos(radians(angle)))`,
`dy = round(distance * sin(radians(angle)))` (first conjunct, for every angle
and distance), and under the default configuration (`angle = -90°`,
`distance = 10`) it evaluates to `(dx, dy) = (0, -10)`; since the image
y-axis points downward, the shadow text position used by `apply_watermark`
is exactly 10 pixels directly above the text anchor. -/
theorem shadow_offset_default :
    (∀ a d : ℝ,
      shadow_dx a d = round (d * Real.cos (a * Real.pi / 180)) ∧
      shadow_dy a d = round (d * Real.sin (a * Real.pi / 180))) ∧
    shadow_dx SHADOW_ANGLE_DEGREES SHADOW_OFFSET_DISTANCE = 0 ∧
    shadow_dy SHADOW_ANGLE_DEGREES SHADOW_OFFSET_DISTANCE = -10 ∧
    (∀ (ctx : Ctx) (img : Img),
      wmShadowPos ctx img =
        ((wmAnchor ctx img).1, (wmAnchor ctx img).2 - 10)) := by
  have h : ((-90 : ℝ)) * Real.pi / 180 = -(Real.pi / 2) := by ring
  have hdx : shadow_dx SHADOW_ANGLE_DEGREES SHADOW_OFFSET_DISTANCE = 0 := by
    unfold shadow_dx SHADOW_ANGLE_DEGREES SHADOW_OFFSET_DISTANCE
    rw [h, Real.cos_neg, Real.cos_pi_div_two, mul_zero, round_zero]
  have hdy : shadow_dy SHADOW_ANGLE_DEGREES SHADOW_OFFSET_DISTANCE = -10 := by
    unfold shadow_dy SHADOW_ANGLE_DEGREES SHADOW_OFFSET_DISTANCE
    rw [h, Real.sin_neg, Real.sin_pi_div_two]
    have h2 : (10 : ℝ) * -1 = ((-10 : ℤ) : ℝ) := by norm_num
    rw [h2, round_intCast]
  refine ⟨fun a d => ⟨rfl, rfl⟩, hdx, hdy, fun ctx img => ?_⟩
  unfold wmShadowPos
  rw [hdx, hdy]
  simp [sub_eq_add_neg]

/-- C7: `apply_watermark` is deterministic — the encoded output byte stream
is a pure function of the input image and the process-wide configuration
(the raster context and the constants baked into the definitions); equal
inputs give byte-identical output, with no other hidden state. -/
theorem apply_watermark_deterministic (ctx : Ctx) (img₁ img₂ : Img)
    (h : img₁ = img₂) : wmOutput ctx img₁ = wmOutput ctx img₂ := by
  rw [h]

/-- Witness for C7 at the concrete context and image. -/
theorem apply_watermark_deterministic_witness :
    wmOutput cexCtx cexImg = wmOutput cexCtx cexImg :=
  apply_watermark_deterministic cexCtx cexImg cexImg rfl

/-! ### Claim about failure semantics of the destination file -/

/-- C8 (amended): failures of `apply_watermark` before the final `save` —
an unreadable source image or a font failure — leave the destination
untouched (not written at all), and every error propagates to the caller
with no internal retry; a successful save writes the full encoding; a
failure to open the destination leaves no file; but the code saves directly
to `output_path` (no temporary file and rename), and PIL's `save` opens the
destination before encoding, so an encoder/write failure after `k` bytes
leaves a truncated `k`-byte file behind (the full file whenever `k` covers
the encoding). -/
theorem apply_watermark_dest_amended (ctx : Ctx) (img : Img) :
    apply_watermark_dest ctx img .openSrcFail none = none ∧
    apply_watermark_dest ctx img .fontError none = none ∧
    apply_watermark_dest ctx img (.saveStage .success) none =
      some (wmOutput ctx img) ∧
    apply_watermark_dest ctx img (.saveStage .openFail) none = none ∧
    (∀ k : ℕ, apply_watermark_dest ctx img (.saveStage (.writeFail k)) none =
      some ((wmOutput ctx img).take k)) ∧
    (∀ k : ℕ, (wmOutput ctx img).length ≤ k →
      apply_watermark_dest ctx img (.saveStage (.writeFail k)) none =
        some (wmOutput ctx img)) := by
  refine ⟨rfl, rfl, rfl, rfl, fun k => rfl, fun k hk => ?_⟩
  show some ((wmOutput ctx img).take k) = some (wmOutput ctx img)
  rw [List.take_of_length_le hk]

/-- C8 counterexample to the claim as stated: at the concrete context and
image the encoded output is the three bytes `[10, 8, 95]`; a write failure
after one byte leaves the destination holding the one-byte truncated file
`[10]`, which is neither "not written at all" nor the fully written
output. -/
theorem apply_watermark_truncated_file_cex :
    wmOutput cexCtx cexImg = [10, 8, 95] ∧
    apply_watermark_dest cexCtx cexImg (.saveStage (.writeFail 1)) none =
      some [10] ∧
    some [10] ≠ (none : Option (List ℕ)) ∧
    some [10] ≠ some (wmOutput cexCtx cexImg) := by
  refine ⟨rfl, rfl, by simp, ?_⟩
  show some [10] ≠ some [10, 8, 95]
  simp

/-- Witness for C8 (amended) at the concrete context and image: the encoded
output has 3 bytes, so a write failure after 5 bytes still leaves the fully
written file. -/
theorem apply_watermark_dest_amended_witness :
    (wmOutput cexCtx cexImg).length ≤ 5 ∧
    apply_watermark_dest cexCtx cexImg (.saveStage (.writeFail 5)) none =
      some (wmOutput cexCtx cexImg) :=
  ⟨by rw [show wmOutput cexCtx cexImg = [10, 8, 95] from rfl]; simp,
   (apply_watermark_dest_amended cexCtx cexImg).2.2.2.2.2 5
     (by rw [show wmOutput cexCtx cexImg = [10, 8, 95] from rfl]; simp)⟩

/-! ### Claim about font resolution -/

/-- C6: for every size, `load_snell_font` tries the fallback tiers in order
— the decoded font collection at the configured face index; the same file at
face index 0 when the first attempt fails with `OSError`; the bundled
fallback font file when the decoded file is absent or both attempts fail
with `OSError`; and finally the built-in default font — and when no font
file is available at all it returns the default font without raising any
exception: the chain terminates in a non-failing default. -/
theorem load_snell_font_tiers {Font : Type} (env : FontEnv Font) (size : ℕ) :
    (∀ f : Font, env.decodedExists = true →
        env.ttcAtConfigIndex size = .ok f →
        load_snell_font env size = .ok f) ∧
    (∀ f : Font, env.decodedExists = true →
        env.ttcAtConfigIndex size = .error .osError →
        env.ttcAtIndex0 size = .ok f → load_snell_font env size = .ok f) ∧
    (env.decodedExists = true →
        env.ttcAtConfigIndex size = .error .osError →
        env.ttcAtIndex0 size = .error .osError →
        load_snell_font env size = loadFallbackTier env size) ∧
    (env.decodedExists = false →
        load_snell_font env size = loadFallbackTier env size) ∧
    (env.fallbackExists = true →
        loadFallbackTier env size = env.fallbackTruetype size) ∧
    (env.fallbackExists = false →
        loadFallbackTier env size = .ok env.defaultFont) ∧
    (env.decodedExists = false → env.fallbackExists = false →
        load_snell_font env size = .ok env.defaultFont) := by
  refine ⟨?_, ?_, ?_, ?_, ?_, ?_, ?_⟩ <;>
    intros <;> simp_all [load_snell_font, loadFallbackTier]

/-- Witness for C6: in the environment with no decoded font and no bundled
fallback file, `load_snell_font` returns the built-in default font. -/
theorem load_snell_font_tiers_witness :
    emptyFontEnv.decodedExists = false ∧ emptyFontEnv.fallbackExists = false ∧
    load_snell_font emptyFontEnv 12 = .ok 0 :=
  ⟨rfl, rfl, (load_snell_font_tiers emptyFontEnv 12).2.2.2.2.2.2 rfl rfl⟩

/-! ### Claims about the `app.py` helpers -/

/-- Auxiliary: the head of a non-trivial `dropWhile` result fails the
predicate. -/
theorem dropWhile_head_false {α : Type} (p : α → Bool) :
    ∀ (l : List α) (y : α) (t : List α),
      l.dropWhile p = y :: t → p y = false := by
  intro l
  induction l with
  | nil => intro y t h; simp [List.dropWhile] at h
  | cons a l ih =>
    intro y t h
    by_cases hp : p a
    · rw [List.dropWhile_cons_of_pos hp] at h
      exact ih y t h
    · rw [List.dropWhile_cons_of_neg hp] at h
      cases h
      exact Bool.eq_false_iff.mpr hp

/-- Auxiliary: `takeWhile` stops exactly at the first failing element. -/
theorem takeWhile_all_append {α : Type} (p : α → Bool) (l₁ : List α)
    (h : ∀ x ∈ l₁, p x = true) (y : α) (hy : p y = false) (l₂ : List α) :
    (l₁ ++ y :: l₂).takeWhile p = l₁ := by
  induction l₁ with
  | nil => simp [List.takeWhile_cons, hy]
  | cons a l ih =>
    have ha := h a (by simp)
    simp only [List.cons_append, List.takeWhile_cons, ha]
    simp [ih (fun x hx => h x (by simp [hx]))]

/-- Auxiliary characterization of `allowed_file`: it accepts exactly the
filenames of the shape `a ++ '.' :: b` where `b` (the part after the last
dot, which contains no further dot) lowercases into the extension
allow-list. -/
theorem allowed_file_iff_aux (s : List Char) : allowed_file s = true ↔
    ∃ a b : List Char, s = a ++ '.' :: b ∧ '.' ∉ b ∧
      pyLower b ∈ ALLOWED_EXTENSIONS := by
  constructor
  · intro h
    rw [allowed_file, Bool.and_eq_true, decide_eq_true_iff,
      decide_eq_true_iff] at h
    obtain ⟨hdot, hext⟩ := h
    have hdotr : '.' ∈ s.reverse := List.mem_reverse.mpr hdot
    have hsplit : s.reverse.takeWhile (fun c => c != '.') ++
        s.reverse.dropWhile (fun c => c != '.') = s.reverse :=
      List.takeWhile_append_dropWhile (fun c => c != '.') s.reverse
    cases hd : s.reverse.dropWhile (fun c => c != '.') with
    | nil =>
      exfalso
      have heq : s.reverse = s.reverse.takeWhile (fun c => c != '.') := by
        rw [hd, List.append_nil] at hsplit
        exact hsplit.symm
      have hmem : '.' ∈ s.reverse.takeWhile (fun c => c != '.') := heq ▸ hdotr
      have := List.mem_takeWhile_imp hmem
      simp at this
    | cons y t =>
      have hy : (y != '.') = false := dropWhile_head_false _ s.reverse y t hd
      have hy' : y = '.' := by simpa using hy
      subst hy'
      refine ⟨t.reverse, (s.reverse.takeWhile (fun c => c != '.')).reverse,
        ?_, ?_, ?_⟩
      · have heq : s.reverse = s.reverse.takeWhile (fun c => c != '.') ++
            '.' :: t := by
          rw [hd] at hsplit
          exact hsplit.symm
        calc s = s.reverse.reverse := (List.reverse_reverse s).symm
        _ = (s.reverse.takeWhile (fun c => c != '.') ++ '.' :: t).reverse :=
              congrArg List.reverse heq
        _ = ('.' :: t).reverse ++
              (s.reverse.takeWhile (fun c => c != '.')).reverse := by
              rw [List.reverse_append]
        _ = t.reverse ++
              '.' :: (s.reverse.takeWhile (fun c => c != '.')).reverse := by
              simp
      · intro hmem
        rw [List.mem_reverse] at hmem
        have := List.mem_takeWhile_imp hmem
        simp at this
      · simpa [rsplitLast] using hext
  · rintro ⟨a, b, rfl, hnb, hmem⟩
    rw [allowed_file, Bool.and_eq_true, decide_eq_true_iff,
      decide_eq_true_iff]
    refine ⟨by simp, ?_⟩
    have h1 : (a ++ '.' :: b).reverse = b.reverse ++ '.' :: a.reverse := by
      simp [List.reverse_append]
    have h2 : (b.reverse ++ '.' :: a.reverse).takeWhile (fun c => c != '.') =
        b.reverse := by
      refine takeWhile_all_append _ _ ?_ '.' (by simp) _
      intro x hx
      rw [List.mem_reverse] at hx
      have hxne : x ≠ '.' := fun hxx => hnb (hxx ▸ hx)
      simp [hxne]
    have hr : rsplitLast (a ++ '.' :: b) = b := by
      unfold rsplitLast
      rw [h1, h2, List.reverse_reverse]
    rw [hr]
    exact hmem

/-- C9: `allowed_file` returns `True` exactly when the filename contains at
least one `'.'` and the substring after the last `'.'`, lowercased, is one
of `{png, jpg, jpeg, gif}`; consequently `"photo.JPG"` (uppercase extension)
is accepted, the extensionless `"jpg"` is rejected, and the bare-dot name
`".png"` is accepted. -/
theorem allowed_file_characterization :
    (∀ s : List Char, allowed_file s = true ↔
      ∃ a b : List Char, s = a ++ '.' :: b ∧ '.' ∉ b ∧
        pyLower b ∈ ALLOWED_EXTENSIONS) ∧
    allowed_file ['p', 'h', 'o', 't', 'o', '.', 'J', 'P', 'G'] = true ∧
    allowed_file ['j', 'p', 'g'] = false ∧
    allowed_file ['.', 'p', 'n', 'g'] = true :=
  ⟨allowed_file_iff_aux, by decide, by decide, by decide⟩

/-- C10: every photo document the upload handler creates carries
`is_featured = False` and `price = 0.0`; such a document is never selected
by the home page's featured-photos query, so a fresh upload leaves the home
page's photo list unchanged until an admin updates the document. -/
theorem upload_photo_not_featured (db : List PhotoDoc)
    (fn cat url : List Char) :
    (uploadPhotoDoc fn cat url).is_featured = false ∧
    (uploadPhotoDoc fn cat url).price = 0 ∧
    (∀ db' : List PhotoDoc, uploadPhotoDoc fn cat url ∉ homeFeatured db') ∧
    homeFeatured (uploadAddPhoto db fn cat url) = homeFeatured db := by
  refine ⟨rfl, rfl, ?_, ?_⟩
  · intro db' hmem
    have := (List.mem_filter.mp hmem).2
    simp [uploadPhotoDoc] at this
  · unfold uploadAddPhoto homeFeatured
    rw [List.filter_append]
    simp [uploadPhotoDoc]

end RogersPhotos
